import Mathlib

/-!
Verification of the configuration reconciliation subsystem of the Orbit
repository (`omni/isaac/orbit/utils/dict.py`): `class_to_dict`,
`update_class_from_dict`, `update_dict` and `_string_to_callable`.

The Python functions are shallowly embedded over an inductive universe
`Value` of the Python values they manipulate (ints, bools, strings, None,
lists, dicts, class instances with a `__dict__`, and module-level
callables).  Python runtime failures (`KeyError`, `ValueError`,
`TypeError`, `AttributeError`, `ModuleNotFoundError`) are embedded as
constructors of `PyError`, one per raise site, and the in-place mutation
performed by `update_class_from_dict` is made explicit by threading the
target object and the input mapping through the recursion and returning
them together with an optional error.
-/

/-- The Python type of a value, as returned by `type(...)`.  Class
instances carry their class name; `tBool` is a proper subclass of `tInt`
(Python's `bool` derives from `int`). -/
inductive PyType where
  | tInt
  | tBool
  | tStr
  | tNoneType
  | tList
  | tDict
  | tObjC (cls : String)
  | tFunction
deriving DecidableEq, Repr

/-- Universe of Python values manipulated by `dict.py`.
`vobj cls fields` is a class instance with `obj.__dict__ = fields`;
`vdict` is a plain `dict`; `vcallable m n` is a module-level callable
with `__module__ = m` and `__name__ = n`. -/
inductive Value where
  | vint (n : Int)
  | vbool (b : Bool)
  | vstr (s : String)
  | vnone
  | vseq (xs : List Value)
  | vdict (fields : List (String × Value))
  | vobj (cls : String) (fields : List (String × Value))
  | vcallable (mod : String) (name : String)

namespace Value

/-- `callable(v)` -/
def isCallable : Value → Bool
  | .vcallable _ _ => true
  | _ => false

/-- `isinstance(v, dict)`; plain dicts are also the only values of this
universe that register with `collections.abc.Mapping`. -/
def isDict : Value → Bool
  | .vdict _ => true
  | _ => false

/-- `hasattr(v, "__dict__")`: class instances and functions expose a
`__dict__`. -/
def hasDunderDict : Value → Bool
  | .vobj _ _ => true
  | .vcallable _ _ => true
  | _ => false

/-- `isinstance(v, collections.abc.Iterable)`: lists, dicts and strings. -/
def isIterablePy : Value → Bool
  | .vseq _ => true
  | .vdict _ => true
  | .vstr _ => true
  | _ => false

/-- `isinstance(v, str)` -/
def isStrPy : Value → Bool
  | .vstr _ => true
  | _ => false

/-- `v is None` -/
def isNoneV : Value → Bool
  | .vnone => true
  | _ => false

/-- `len(v)`: `none` models the `TypeError: object of type ... has no len()`
raised by unsized values (ints, `None`, ...). -/
def pyLen : Value → Option Nat
  | .vseq xs => some xs.length
  | .vdict fs => some fs.length
  | .vstr s => some s.length
  | _ => none

/-- `type(v)` -/
def pyTypeOf : Value → PyType
  | .vint _ => .tInt
  | .vbool _ => .tBool
  | .vstr _ => .tStr
  | .vnone => .tNoneType
  | .vseq _ => .tList
  | .vdict _ => .tDict
  | .vobj cls _ => .tObjC cls
  | .vcallable _ _ => .tFunction

/-- `isinstance(v, t)` for a concrete class `t`: exact class match, plus
Python's `bool <: int` subclassing. -/
def isinstancePy (v : Value) (t : PyType) : Bool :=
  pyTypeOf v == t || (pyTypeOf v == .tBool && t == .tInt)

end Value

/-- First binding of a key in an association list (Python dict lookup /
attribute lookup; the well-formedness predicates below rule duplicate
keys out where it matters). -/
def getField (fields : List (String × Value)) (k : String) : Option Value :=
  (fields.find? (fun p => p.1 == k)).map (fun p => p.2)

/-- Replace the binding of an existing key, keeping position
(`setattr` on an existing attribute, or `d[k] = v` for a present key). -/
def setField (fields : List (String × Value)) (k : String) (v : Value) :
    List (String × Value) :=
  fields.map (fun p => if p.1 == k then (k, v) else p)

/-- `d[k] = v` on a Python dict: overwrite in place if the key is bound,
otherwise append at the end (insertion order). -/
def dictSet (d : List (String × Value)) (k : String) (v : Value) :
    List (String × Value) :=
  if (d.find? (fun p => p.1 == k)).isSome then setField d k v
  else d ++ [(k, v)]

/-- `getattr(obj, key)` restricted to instance attributes: only class
instances carry the named configuration fields. -/
def getattrV (obj : Value) (k : String) : Option Value :=
  match obj with
  | .vobj _ fs => getField fs k
  | _ => none

/-- `hasattr(obj, key)` -/
def hasattrV (obj : Value) (k : String) : Bool :=
  (getattrV obj k).isSome

/-- `setattr(obj, key, v)` (only ever reached after `hasattr` succeeded,
hence only on class instances). -/
def setattrV (obj : Value) (k : String) (v : Value) : Value :=
  match obj with
  | .vobj cls fs => .vobj cls (setField fs k v)
  | other => other

/-- The entries of a plain dict (used after an `isinstance(..., Mapping)`
or `isinstance(..., dict)` test has succeeded). -/
def dictItems : Value → List (String × Value)
  | .vdict d => d
  | _ => []

/-- One constructor per Python raise site reachable from `dict.py`. -/
inductive PyError where
  /-- `KeyError(f"[Config]: Key not found under namespace: {key_ns}.")` -/
  | keyNotFound (ns : String)
  /-- `ValueError(f"[Config]: Incorrect length under namespace: ...")` -/
  | incorrectLength (ns : String) (expected received : Nat)
  /-- `ValueError(f"[Config]: Incorrect type under namespace: ...")` -/
  | incorrectType (ns : String) (expected received : PyType)
  /-- `TypeError: object of type '...' has no len()` from `len(obj_mem)` -/
  | typeErrorNoLen (t : PyType)
  /-- `KeyError` from reading `value[k]` with `k` unbound -/
  | keyErrorItem (k : String)
  /-- `TypeError` from subscripting a non-dict with a string key -/
  | typeErrorNotSubscriptable (t : PyType)
  /-- `ValueError` from unpacking `name.split(":")` into two names when
  the split produced `parts` pieces -/
  | valueErrorUnpack (parts : Nat)
  /-- `ModuleNotFoundError` from `importlib.import_module` -/
  | moduleNotFoundError (mod : String)
  /-- the `ValueError` built in the `except AttributeError` handler of
  `_string_to_callable` (attribute missing, or input without `.split`) -/
  | valueErrorFromAttributeError (input : String)
  /-- `ValueError(f"The imported object is not callable: '{name}'")` -/
  | valueErrorNotCallable (input : String)
  /-- `AttributeError: '...' object has no attribute '__dict__'` -/
  | attributeErrorNoDict (t : PyType)
  /-- `ValueError(f"Expected a class instance. Received: {type(obj)}.")`
  (the guard of `class_to_dict`; shown below to be unreachable) -/
  | valueErrorNotClassInstance (t : PyType)
  /-- `TypeError: '...' object does not support item assignment` -/
  | typeErrorNoItemAssign (t : PyType)
  /-- `AttributeError: '...' object has no attribute 'get'` -/
  | attributeErrorNoGet (t : PyType)
deriving DecidableEq, Repr

/-- A loadable module: `importlib.import_module` resolves its name, and
`getattr` looks attributes up in `attrs`. -/
structure PyModule where
  name : String
  attrs : List (String × Value)

/-- The importable-module universe `importlib` draws from. -/
abbrev ModuleEnv := List PyModule

def findModule (env : ModuleEnv) (m : String) : Option PyModule :=
  env.find? (fun md => md.name == m)

def findAttr (md : PyModule) (a : String) : Option Value :=
  (md.attrs.find? (fun p => p.1 == a)).map (fun p => p.2)

/-- Worker for `pySplitColon`: `acc` holds the characters of the current
piece in reverse. -/
def splitColonGo : List Char → List Char → List String
  | [], acc => [String.mk acc.reverse]
  | c :: rest, acc =>
    if c = ':' then String.mk acc.reverse :: splitColonGo rest []
    else splitColonGo rest (c :: acc)

/-- Python's `name.split(":")`: cut the string at every `':'`, keeping
empty pieces (`"".split(":") == [""]`, `":".split(":") == ["", ""]`). -/
def pySplitColon (s : String) : List String :=
  splitColonGo s.toList []

/-- `_string_to_callable(name)`:
```
try:
    mod_name, attr_name = name.split(":")
    mod = importlib.import_module(mod_name)
    callable_object = getattr(mod, attr_name)
    if callable(callable_object):
        return callable_object
    else:
        raise ValueError(f"The imported object is not callable: '{name}'")
except AttributeError as e:
    raise ValueError(...)
```
The unpack failure (`split` not yielding exactly two pieces) and the
failure of the module load are not `AttributeError`s, so they propagate;
the missing-attribute case (and a non-string input, which has no
`.split`) is converted to the handler's `ValueError`. -/
def _string_to_callable (env : ModuleEnv) (name : Value) : Except PyError Value :=
  match name with
  | .vstr s =>
    match pySplitColon s with
    | [mod_name, attr_name] =>
      match findModule env mod_name with
      | none => .error (.moduleNotFoundError mod_name)
      | some md =>
        match findAttr md attr_name with
        | none => .error (.valueErrorFromAttributeError s)
        | some v =>
          if v.isCallable then .ok v
          else .error (.valueErrorNotCallable s)
    | parts => .error (.valueErrorUnpack parts.length)
  | _ => .error (.valueErrorFromAttributeError "")

/-- `f"{value.__module__}:{value.__name__}"` -/
def encodeCallable (mod name : String) : Value :=
  .vstr (mod ++ ":" ++ name)

/-- The `__dict__` of the values `class_to_dict` recurses into: class
instances and dicts iterate their fields; a bare function's `__dict__`
is empty; everything else raises `AttributeError`. -/
def objDictFields : Value → Except PyError (List (String × Value))
  | .vdict d => .ok d
  | .vobj _ fs => .ok fs
  | .vcallable _ _ => .ok []
  | v => .error (.attributeErrorNoDict v.pyTypeOf)

/-- Python's `key.startswith("__")`, structurally on the characters so
that it evaluates inside the kernel. -/
def startsWithDunder (k : String) : Bool :=
  match k.toList with
  | '_' :: '_' :: _ => true
  | _ => false

mutual

/-- The loop body of `class_to_dict`: skip `"__"`-prefixed keys, encode
callables, recurse into values owning a `__dict__` (or dicts), copy
everything else unchanged.  The inner recursive `class_to_dict(value)`
call is guarded by `hasattr(value, "__dict__") or isinstance(value, dict)`
and therefore never fails, so the loop is total. -/
def ctdFields : List (String × Value) → List (String × Value)
  | [] => []
  | (k, v) :: rest =>
    if startsWithDunder k then ctdFields rest
    else (k, serVal v) :: ctdFields rest

/-- Serialization of a single attribute value inside the loop of
`class_to_dict`. -/
def serVal (v : Value) : Value :=
  if v.isCallable then
    match v with
    | .vcallable m n => encodeCallable m n
    | _ => v
  else if v.hasDunderDict || v.isDict then
    match v with
    | .vdict d => .vdict (ctdFields d)
    | .vobj _ fs => .vdict (ctdFields fs)
    | _ => .vdict []
  else v

end

/-- Every Python value has a `__class__` attribute, so the guard
`if not hasattr(obj, "__class__")` of `class_to_dict` can never fire. -/
def hasattrDunderClass (_ : Value) : Bool := true

/-- `class_to_dict(obj)`: the (dead) class-instance guard, then
`obj_dict = obj` for dicts / `obj.__dict__` otherwise, then the
serialization loop. -/
def class_to_dict (obj : Value) : Except PyError Value :=
  if hasattrDunderClass obj = false then
    .error (.valueErrorNotClassInstance obj.pyTypeOf)
  else
    match objDictFields obj with
    | .error e => .error e
    | .ok fs => .ok (.vdict (ctdFields fs))

theorem dictItems_sizeOf_le (v : Value) : sizeOf (dictItems v) ≤ sizeOf v := by
  cases v <;> simp [dictItems] <;> omega

/-- Reading `value[k]`: a `KeyError` if the dict lacks the key, a
`TypeError` if `value` is not subscriptable by a string. -/
def pyGetItem (v : Value) (k : String) : Except PyError Value :=
  match v with
  | .vdict d =>
    match getField d k with
    | some x => .ok x
    | none => .error (.keyErrorItem k)
  | _ => .error (.typeErrorNotSubscriptable v.pyTypeOf)

/-- Writing `value[k] = x`.  In `update_class_from_dict` this always runs
after `pyGetItem` succeeded on the same `value`, so `value` is a dict and
the key is present; the non-dict arm is unreachable there. -/
def pySetItem (v : Value) (k : String) (x : Value) : Value :=
  match v with
  | .vdict d => .vdict (dictSet d k x)
  | other => other

/-- The loop of the `isinstance(obj_mem, Mapping)` branch of
`update_class_from_dict`:
```
for k, v in obj_mem.items():
    if callable(v):
        value[k] = _string_to_callable(value[k])
```
`cur` is the current (dict-valued) attribute; `value` is threaded
through because the assignments mutate the caller's dict in place.  On a
failure the partially mutated `value` is returned alongside the error. -/
def decodeCallableEntries (env : ModuleEnv) :
    List (String × Value) → Value → Value × Option PyError
  | [], value => (value, none)
  | (k, v) :: rest, value =>
    if v.isCallable then
      match pyGetItem value k with
      | .error e => (value, some e)
      | .ok item =>
        match _string_to_callable env item with
        | .error e => (value, some e)
        | .ok c => decodeCallableEntries env rest (pySetItem value k c)
    else decodeCallableEntries env rest value

/-- The body of `update_class_from_dict(obj, data, _ns)`, processing the
items of `data` in order.  The function returns the (partially) mutated
object, the (possibly mutated) `data` — entry values can be rewritten in
place by the Mapping branch and by nested recursive calls — and the
error that aborted the loop, if any.  The branch structure follows the
source line by line:
```
for key, value in data.items():
    key_ns = _ns + "/" + key
    if hasattr(obj, key):
        obj_mem = getattr(obj, key)
        if isinstance(obj_mem, Mapping): ...decode callables, setattr...
        elif isinstance(value, Mapping): ...recurse...
        elif isinstance(value, Iterable) and not isinstance(value, str):
            if len(obj_mem) != len(value) and obj_mem is not None: raise ...
            else: setattr(obj, key, value)
        elif callable(obj_mem): value = _string_to_callable(value); setattr...
        elif isinstance(value, type(obj_mem)): setattr(obj, key, value)
        else: raise ValueError(...)
    else: raise KeyError(...)
```
Note the length guard evaluates `len(obj_mem)` before testing
`obj_mem is not None`, and the callable branch rebinds the *local*
`value` without touching the entry of `data`. -/
def ucfdItems (env : ModuleEnv) (obj : Value) (items : List (String × Value))
    (ns : String) : Value × List (String × Value) × Option PyError :=
  match items with
  | [] => (obj, [], none)
  | (key, value) :: rest =>
    let key_ns := ns ++ "/" ++ key
    match getattrV obj key with
    | none => (obj, (key, value) :: rest, some (.keyNotFound key_ns))
    | some obj_mem =>
      if obj_mem.isDict then
        match decodeCallableEntries env (dictItems obj_mem) value with
        | (value', some e) => (obj, (key, value') :: rest, some e)
        | (value', none) =>
          let obj' := setattrV obj key value'
          let r := ucfdItems env obj' rest ns
          (r.1, (key, value') :: r.2.1, r.2.2)
      else if value.isDict then
        let r0 := ucfdItems env obj_mem (dictItems value) key_ns
        let obj' := setattrV obj key r0.1
        match r0.2.2 with
        | some e => (obj', (key, .vdict r0.2.1) :: rest, some e)
        | none =>
          let r := ucfdItems env obj' rest ns
          (r.1, (key, .vdict r0.2.1) :: r.2.1, r.2.2)
      else if value.isIterablePy && !value.isStrPy then
        match obj_mem.pyLen with
        | none => (obj, (key, value) :: rest, some (.typeErrorNoLen obj_mem.pyTypeOf))
        | some n =>
          let m := value.pyLen.getD 0
          if n != m && !obj_mem.isNoneV then
            (obj, (key, value) :: rest, some (.incorrectLength key_ns n m))
          else
            let obj' := setattrV obj key value
            let r := ucfdItems env obj' rest ns
            (r.1, (key, value) :: r.2.1, r.2.2)
      else if obj_mem.isCallable then
        match _string_to_callable env value with
        | .error e => (obj, (key, value) :: rest, some e)
        | .ok c =>
          let obj' := setattrV obj key c
          let r := ucfdItems env obj' rest ns
          (r.1, (key, value) :: r.2.1, r.2.2)
      else if value.isinstancePy obj_mem.pyTypeOf then
        let obj' := setattrV obj key value
        let r := ucfdItems env obj' rest ns
        (r.1, (key, value) :: r.2.1, r.2.2)
      else
        (obj, (key, value) :: rest,
          some (.incorrectType key_ns obj_mem.pyTypeOf value.pyTypeOf))
termination_by sizeOf items
decreasing_by
  all_goals simp_wf
  all_goals (have h := dictItems_sizeOf_le v; omega)

/-- `update_class_from_dict(obj, data, _ns)` — the in-place update made
explicit: returns the mutated object, the possibly mutated `data`, and
the error the call raised, if any. -/
def update_class_from_dict (env : ModuleEnv) (obj : Value)
    (data : List (String × Value)) (ns : String) :
    Value × List (String × Value) × Option PyError :=
  ucfdItems env obj data ns

/-- `orig_dict.get(keyname, {})` -/
def dictGetD (d : List (String × Value)) (k : String) (dflt : Value) : Value :=
  (getField d k).getD dflt

/-- `update_dict(orig_dict, new_dict)`:
```
for keyname, value in new_dict.items():
    if isinstance(value, collections.abc.Mapping):
        orig_dict[keyname] = update_dict(orig_dict.get(keyname, {}), value)
    else:
        orig_dict[keyname] = value
return orig_dict
```
`orig_dict` is any value because the recursive call receives whatever
`orig_dict.get(keyname, {})` returned, which need not be a dict; a
non-dict receiver fails on `.get` (`AttributeError`) or on item
assignment (`TypeError`) exactly as the interpreter does. -/
def update_dict (orig : Value) (new : List (String × Value)) :
    Except PyError Value :=
  match new with
  | [] => .ok orig
  | (keyname, value) :: rest =>
    if value.isDict then
      match orig with
      | .vdict od => do
        let merged ← update_dict (dictGetD od keyname (.vdict [])) (dictItems value)
        update_dict (.vdict (dictSet od keyname merged)) rest
      | other => .error (.attributeErrorNoGet other.pyTypeOf)
    else
      match orig with
      | .vdict od => update_dict (.vdict (dictSet od keyname value)) rest
      | other => .error (.typeErrorNoItemAssign other.pyTypeOf)
termination_by sizeOf new
decreasing_by
  all_goals simp_wf
  all_goals (have h := dictItems_sizeOf_le v; omega)


/-!  Predicates used to state the claims.  -/

/-- Failure kind "format": the encoded-callable string did not split into
exactly a module part and an attribute part. -/
def isFormatErr : PyError → Bool
  | .valueErrorUnpack _ => true
  | _ => false

/-- Failure kind "resolution": the module could not be loaded, or the
attribute was absent from the loaded module. -/
def isResolutionErr : PyError → Bool
  | .moduleNotFoundError _ => true
  | .valueErrorFromAttributeError _ => true
  | _ => false

/-- Failure kind "not callable": the resolved attribute exists but is not
invocable. -/
def isNotCallableErr : PyError → Bool
  | .valueErrorNotCallable _ => true
  | _ => false

/-- No entry of the dict binds a callable value (at the top level, which
is the only level the Mapping branch of `update_class_from_dict` scans). -/
def noCallTop (d : List (String × Value)) : Bool :=
  d.all (fun p => !p.2.isCallable)

/-- Pairwise distinct keys (every Python dict / `__dict__` satisfies
this). -/
def nodupKeys : List (String × Value) → Bool
  | [] => true
  | (k, _) :: rest => !(rest.any (fun q => q.1 == k)) && nodupKeys rest

/-- No key of `pre` occurs as a key of `fs`. -/
def disjointKeys (pre fs : List (String × Value)) : Bool :=
  pre.all (fun p => !(fs.any (fun q => q.1 == p.1)))

mutual

/-- `ctdFields` maps these items to themselves: no reserved `"__"` keys,
no callable or class-instance values, and dict values recursively of the
same shape (sequence values pass through `class_to_dict` unchanged
whatever they contain). -/
def serFixedFields : List (String × Value) → Bool
  | [] => true
  | (k, v) :: rest => !startsWithDunder k && serFixedVal v && serFixedFields rest

/-- A single value the serialization loop copies unchanged. -/
def serFixedVal : Value → Bool
  | .vdict d => serFixedFields d
  | .vobj _ _ => false
  | .vcallable _ _ => false
  | _ => true

end

mutual

/-- Round-trip compatibility of a field value `v` of the object being
serialized with the current value `v'` of the same field in the merge
target: same Python kind, sequences of equal length, dict values that
serialize to themselves against dict values without callable entries,
and nested instances of the same class related field-by-field with
pairwise-distinct, non-reserved field names. -/
def rtVal : Value → Value → Bool
  | .vint _, .vint _ => true
  | .vbool _, .vbool _ => true
  | .vstr _, .vstr _ => true
  | .vnone, .vnone => true
  | .vseq xs, .vseq ys => xs.length == ys.length
  | .vdict d, .vdict d' => serFixedFields d && noCallTop d'
  | .vobj c fs, .vobj c' fs' => c == c' && rtFields fs fs'
  | _, _ => false

/-- Field-by-field round-trip compatibility of two `__dict__`s. -/
def rtFields : List (String × Value) → List (String × Value) → Bool
  | [], [] => true
  | (k, v) :: fs, (k', v') :: fs' =>
    k == k' && !startsWithDunder k && !(fs.any (fun q => q.1 == k))
      && rtVal v v' && rtFields fs fs'
  | _, _ => false

end

mutual

/-- Somewhere inside the value (including inside sequences and nested
dicts/instances) sits a raw callable. -/
def containsRawCallable : Value → Bool
  | .vcallable _ _ => true
  | .vseq xs => anyRawCallableL xs
  | .vdict fs => anyRawCallableF fs
  | .vobj _ fs => anyRawCallableF fs
  | _ => false

def anyRawCallableL : List Value → Bool
  | [] => false
  | x :: xs => containsRawCallable x || anyRawCallableL xs

def anyRawCallableF : List (String × Value) → Bool
  | [] => false
  | (_, v) :: rest => containsRawCallable v || anyRawCallableF rest

end

mutual

/-- No value bound directly in a mapping — at any mapping-nesting depth —
is a raw callable (values buried inside sequence elements are not
inspected). -/
def noRawCallableAtMapLevels : Value → Bool
  | .vdict fs => noRawCallableFieldsAux fs
  | _ => true

def noRawCallableFieldsAux : List (String × Value) → Bool
  | [] => true
  | (_, v) :: rest =>
    !v.isCallable && noRawCallableAtMapLevels v && noRawCallableFieldsAux rest

end

mutual

/-- Well-formed plain data: every dict reachable through dict values has
pairwise-distinct keys (true of every value produced by the Python
runtime). -/
def dwfVal : Value → Bool
  | .vdict d => nodupKeys d && dwfFields d
  | _ => true

def dwfFields : List (String × Value) → Bool
  | [] => true
  | (_, v) :: rest => dwfVal v && dwfFields rest

end

/-- An entry value of the incoming dict after the Mapping branch of
`update_class_from_dict` ran: either untouched, or overwritten in place
by the decoded callable of the original value. -/
def entrySameOrDecoded (env : ModuleEnv) (w w' : Value) : Prop :=
  w' = w ∨ _string_to_callable env w = .ok w'

/-!  Claim theorems.  -/

/-- C5: `_string_to_callable` fails with a format-kind error (the
`ValueError` from unpacking the split) whenever the input splits into
anything but exactly two pieces — i.e. it contains zero or more than one
`:` — with a resolution-kind error when the module cannot be loaded or
the attribute is absent, and with a not-callable-kind error when the
resolved attribute is not invocable; in particular
`decode("not_a_valid_format")` fails with the format kind and
`decode("nomodule.none:attr")` with the resolution kind. -/
theorem claimC5_decode_error_kinds :
    (∀ (env : ModuleEnv) (s : String), (pySplitColon s).length ≠ 2 →
      ∃ e, _string_to_callable env (.vstr s) = .error e ∧ isFormatErr e = true) ∧
    (∀ (env : ModuleEnv) (s m a : String), pySplitColon s = [m, a] →
      findModule env m = none →
      ∃ e, _string_to_callable env (.vstr s) = .error e ∧ isResolutionErr e = true) ∧
    (∀ (env : ModuleEnv) (s m a : String) (md : PyModule), pySplitColon s = [m, a] →
      findModule env m = some md → findAttr md a = none →
      ∃ e, _string_to_callable env (.vstr s) = .error e ∧ isResolutionErr e = true) ∧
    (∀ (env : ModuleEnv) (s m a : String) (md : PyModule) (v : Value),
      pySplitColon s = [m, a] → findModule env m = some md →
      findAttr md a = some v → v.isCallable = false →
      ∃ e, _string_to_callable env (.vstr s) = .error e ∧ isNotCallableErr e = true) ∧
    (∀ env : ModuleEnv, _string_to_callable env (.vstr "not_a_valid_format")
        = .error (.valueErrorUnpack 1)) ∧
    (∀ env : ModuleEnv, findModule env "nomodule.none" = none →
      _string_to_callable env (.vstr "nomodule.none:attr")
        = .error (.moduleNotFoundError "nomodule.none")) := by
  refine ⟨?_, ?_, ?_, ?_, ?_, ?_⟩
  · intro env s hlen
    rcases h : pySplitColon s with _ | ⟨x, _ | ⟨y, _ | ⟨z, t⟩⟩⟩
    · exact ⟨.valueErrorUnpack 0, by simp [_string_to_callable, h], rfl⟩
    · exact ⟨.valueErrorUnpack 1, by simp [_string_to_callable, h], rfl⟩
    · exact absurd (by simp [h]) hlen
    · exact ⟨.valueErrorUnpack (t.length + 1 + 1 + 1),
        by simp [_string_to_callable, h], rfl⟩
  · intro env s m a hs hm
    exact ⟨.moduleNotFoundError m, by simp [_string_to_callable, hs, hm], rfl⟩
  · intro env s m a md hs hm ha
    exact ⟨.valueErrorFromAttributeError s,
      by simp [_string_to_callable, hs, hm, ha], rfl⟩
  · intro env s m a md v hs hm ha hc
    exact ⟨.valueErrorNotCallable s,
      by simp [_string_to_callable, hs, hm, ha, hc], rfl⟩
  · intro env
    have hsplit : pySplitColon "not_a_valid_format" = ["not_a_valid_format"] := rfl
    simp [_string_to_callable, hsplit]
  · intro env hm
    have hsplit : pySplitColon "nomodule.none:attr" = ["nomodule.none", "attr"] := rfl
    simp [_string_to_callable, hsplit, hm]

/-- C5 witness: each failure kind observed on a concrete input. -/
theorem claimC5_witness :
    (∃ e, _string_to_callable [] (.vstr "a:b:c") = .error e ∧ isFormatErr e = true) ∧
    (∃ e, _string_to_callable [] (.vstr "m:f") = .error e ∧ isResolutionErr e = true) ∧
    (∃ e, _string_to_callable [⟨"m", []⟩] (.vstr "m:f") = .error e ∧
      isResolutionErr e = true) ∧
    (∃ e, _string_to_callable [⟨"m", [("f", .vint 0)]⟩] (.vstr "m:f") = .error e ∧
      isNotCallableErr e = true) ∧
    _string_to_callable [] (.vstr "not_a_valid_format") = .error (.valueErrorUnpack 1) ∧
    _string_to_callable [] (.vstr "nomodule.none:attr")
      = .error (.moduleNotFoundError "nomodule.none") :=
  ⟨claimC5_decode_error_kinds.1 [] "a:b:c" (by decide),
    claimC5_decode_error_kinds.2.1 [] "m:f" "m" "f" (by decide) rfl,
    claimC5_decode_error_kinds.2.2.1 [⟨"m", []⟩] "m:f" "m" "f" ⟨"m", []⟩
      (by decide) rfl rfl,
    claimC5_decode_error_kinds.2.2.2.1 [⟨"m", [("f", .vint 0)]⟩] "m:f" "m" "f"
      ⟨"m", [("f", .vint 0)]⟩ (.vint 0) (by decide) rfl rfl rfl,
    claimC5_decode_error_kinds.2.2.2.2.1 [],
    claimC5_decode_error_kinds.2.2.2.2.2 [] rfl⟩

/-- C6: the guard `hasattr(obj, "__class__")` of `class_to_dict` holds of
every Python value, so the documented invalid-input `ValueError` is
unreachable: called on a scalar or a sequence, `class_to_dict` instead
crashes with `AttributeError` at `obj.__dict__`; generic mappings are
accepted and serialized field by field. -/
theorem claimC6_serialize_guard_dead :
    class_to_dict (.vint 3) = .error (.attributeErrorNoDict .tInt) ∧
    class_to_dict (.vstr "x") = .error (.attributeErrorNoDict .tStr) ∧
    class_to_dict (.vseq [.vint 1, .vint 2]) = .error (.attributeErrorNoDict .tList) ∧
    class_to_dict .vnone = .error (.attributeErrorNoDict .tNoneType) ∧
    class_to_dict (.vdict [("a", .vint 1)]) = .ok (.vdict [("a", .vint 1)]) ∧
    (∀ (v : Value) (e : PyError), class_to_dict v = .error e →
      ∃ t, e = .attributeErrorNoDict t) := by
  refine ⟨rfl, rfl, rfl, rfl, rfl, ?_⟩
  intro v e h
  cases v <;> simp [class_to_dict, hasattrDunderClass, objDictFields] at h <;>
    exact ⟨_, h.symm⟩

/-- C6 witness: the unreachable-`ValueError` fact applied at a concrete
failing input. -/
theorem claimC6_witness :
    ∃ t, PyError.attributeErrorNoDict .tNoneType = .attributeErrorNoDict t :=
  claimC6_serialize_guard_dead.2.2.2.2.2 .vnone (.attributeErrorNoDict .tNoneType) rfl

/-- C9: `update_class_from_dict` is not atomic: on an object with fields
`a = 1`, `b = 2` and data `{a: 5, b: "x"}` the merge raises the type
error at `b`, yet the assignment of `a` performed in the earlier
iteration survives — the returned object differs from the original. -/
theorem claimC9_partial_mutation :
    update_class_from_dict [] (.vobj "C" [("a", .vint 1), ("b", .vint 2)])
      [("a", .vint 5), ("b", .vstr "x")] ""
      = (.vobj "C" [("a", .vint 5), ("b", .vint 2)],
         [("a", .vint 5), ("b", .vstr "x")],
         some (.incorrectType "/b" .tInt .tStr)) ∧
    Value.vobj "C" [("a", .vint 5), ("b", .vint 2)]
      ≠ .vobj "C" [("a", .vint 1), ("b", .vint 2)] := by
  constructor
  · simp [update_class_from_dict, ucfdItems, decodeCallableEntries, getattrV,
      getField, setattrV, setField, dictItems, dictSet, pyGetItem, pySetItem,
      _string_to_callable, pySplitColon, splitColonGo, findModule, findAttr,
      dictGetD, Value.isCallable, Value.isDict, Value.isIterablePy,
      Value.isStrPy, Value.isNoneV, Value.pyLen, Value.pyTypeOf,
      Value.isinstancePy, encodeCallable]
  · simp

/-- C10: `update_class_from_dict` mutates the caller's `data`: with a
field currently holding `{"f": <callable math:cos>}` and incoming data
`{"m": {"f": "mymod:g"}}`, the inner dict's entry at `"f"` is rewritten
in place to the decoded callable before being assigned, so the returned
`data` differs from the one passed in. -/
theorem claimC10_input_mutation :
    update_class_from_dict [⟨"mymod", [("g", .vcallable "mymod" "g")]⟩]
      (.vobj "C" [("m", .vdict [("f", .vcallable "math" "cos")])])
      [("m", .vdict [("f", .vstr "mymod:g")])] ""
      = (.vobj "C" [("m", .vdict [("f", .vcallable "mymod" "g")])],
         [("m", .vdict [("f", .vcallable "mymod" "g")])], none) ∧
    [("m", Value.vdict [("f", Value.vcallable "mymod" "g")])]
      ≠ [("m", Value.vdict [("f", Value.vstr "mymod:g")])] := by
  constructor
  · simp [update_class_from_dict, ucfdItems, decodeCallableEntries, getattrV,
      getField, setattrV, setField, dictItems, dictSet, pyGetItem, pySetItem,
      _string_to_callable, pySplitColon, splitColonGo, findModule, findAttr,
      dictGetD, Value.isCallable, Value.isDict, Value.isIterablePy,
      Value.isStrPy, Value.isNoneV, Value.pyLen, Value.pyTypeOf,
      Value.isinstancePy, encodeCallable]
  · simp

/-- C3 counterexample: the claim says a proper subclass of the current
field's type is rejected, but with current value `3` (type `int`) and
incoming `True` (type `bool`, a proper subclass of `int`) the code's
`isinstance(value, type(obj_mem))` test succeeds and the bool is
assigned without error. -/
theorem claimC3_counterexample :
    update_class_from_dict [] (.vobj "C" [("x", .vint 3)]) [("x", .vbool true)] ""
      = (.vobj "C" [("x", .vbool true)], [("x", .vbool true)], none) ∧
    Value.pyTypeOf (.vbool true) ≠ Value.pyTypeOf (.vint 3) := by
  constructor
  · simp [update_class_from_dict, ucfdItems, decodeCallableEntries, getattrV,
      getField, setattrV, setField, dictItems, dictSet, pyGetItem, pySetItem,
      _string_to_callable, pySplitColon, splitColonGo, findModule, findAttr,
      dictGetD, Value.isCallable, Value.isDict, Value.isIterablePy,
      Value.isStrPy, Value.isNoneV, Value.pyLen, Value.pyTypeOf,
      Value.isinstancePy, encodeCallable]
  · decide

/-- C3 (amended): when none of the mapping/sequence/callable special
cases applies, the incoming value is assigned iff
`isinstance(value, type(current))` holds — so values of the exact type
*and* of proper subclasses (bool into int) are accepted — and otherwise
the merge fails with the type-mismatch error carrying the namespace
path, the expected type and the received type. -/
theorem claimC3_amended (env : ModuleEnv) (cls key ns : String)
    (fields : List (String × Value)) (cur value : Value)
    (hget : getField fields key = some cur)
    (hcurdict : cur.isDict = false)
    (hvaldict : value.isDict = false)
    (hvalseq : (value.isIterablePy && !value.isStrPy) = false)
    (hcurcall : cur.isCallable = false) :
    update_class_from_dict env (.vobj cls fields) [(key, value)] ns =
      if value.isinstancePy cur.pyTypeOf then
        (.vobj cls (setField fields key value), [(key, value)], none)
      else
        (.vobj cls fields, [(key, value)],
         some (.incorrectType (ns ++ "/" ++ key) cur.pyTypeOf value.pyTypeOf)) := by
  by_cases hinst : value.isinstancePy cur.pyTypeOf = true
  · simp [update_class_from_dict, ucfdItems, getattrV, hget, hcurdict, hvaldict,
      hvalseq, hcurcall, hinst, setattrV]
  · simp only [Bool.not_eq_true] at hinst
    simp [update_class_from_dict, ucfdItems, getattrV, hget, hcurdict, hvaldict,
      hvalseq, hcurcall, hinst]

/-- C3 witness: an exact-type match is assigned (the spec's own example:
current `3`, incoming `5`). -/
theorem claimC3_witness :
    update_class_from_dict [] (.vobj "C" [("x", .vint 3)]) [("x", .vint 5)] ""
      = (.vobj "C" [("x", .vint 5)], [("x", .vint 5)], none) := by
  have h := claimC3_amended [] "C" "x" "" [("x", .vint 3)] (.vint 3) (.vint 5)
    rfl rfl rfl rfl rfl
  simpa using h

/-- C4 counterexample: the claim exempts an absent (`None`) or empty
current value from the length check, but the code raises the
length-mismatch error for an empty current list, and `len(None)` raises
a `TypeError` for a `None` current value — neither assigns. -/
theorem claimC4_counterexample :
    update_class_from_dict [] (.vobj "C" [("x", .vseq [])])
      [("x", .vseq [.vint 1, .vint 2])] ""
      = (.vobj "C" [("x", .vseq [])], [("x", .vseq [.vint 1, .vint 2])],
         some (.incorrectLength "/x" 0 2)) ∧
    update_class_from_dict [] (.vobj "C" [("x", .vnone)])
      [("x", .vseq [.vint 1, .vint 2])] ""
      = (.vobj "C" [("x", .vnone)], [("x", .vseq [.vint 1, .vint 2])],
         some (.typeErrorNoLen .tNoneType)) := by
  constructor <;>
    simp [update_class_from_dict, ucfdItems, decodeCallableEntries, getattrV,
      getField, setattrV, setField, dictItems, dictSet, pyGetItem, pySetItem,
      _string_to_callable, pySplitColon, splitColonGo, findModule, findAttr,
      dictGetD, Value.isCallable, Value.isDict, Value.isIterablePy,
      Value.isStrPy, Value.isNoneV, Value.pyLen, Value.pyTypeOf,
      Value.isinstancePy, encodeCallable]

/-- C4 (amended): for an incoming non-string sequence (with the current
value not a mapping), the code first evaluates `len(current)`: if the
current value is unsized (`None`, a scalar, ...) that raises a
`TypeError`; otherwise a length mismatch raises the length-mismatch
error carrying the namespace path, the expected and the received
lengths, and equal lengths make the whole sequence be assigned
atomically. -/
theorem claimC4_amended (env : ModuleEnv) (cls key ns : String)
    (fields : List (String × Value)) (cur : Value) (vs : List Value)
    (hget : getField fields key = some cur)
    (hcurdict : cur.isDict = false) :
    update_class_from_dict env (.vobj cls fields) [(key, .vseq vs)] ns =
      match cur.pyLen with
      | none => (.vobj cls fields, [(key, .vseq vs)],
          some (.typeErrorNoLen cur.pyTypeOf))
      | some n =>
        if n != vs.length && !cur.isNoneV then
          (.vobj cls fields, [(key, .vseq vs)],
           some (.incorrectLength (ns ++ "/" ++ key) n vs.length))
        else (.vobj cls (setField fields key (.vseq vs)), [(key, .vseq vs)], none) := by
  have hvd : Value.isDict (.vseq vs) = false := rfl
  have hIter : (Value.isIterablePy (.vseq vs) && !Value.isStrPy (.vseq vs)) = true := rfl
  have hpl : Value.pyLen (.vseq vs) = some vs.length := rfl
  rcases hlen : cur.pyLen with _ | n
  · simp [update_class_from_dict, ucfdItems, getattrV, hget, hcurdict, hvd,
      hIter, hlen]
  · have hnone : cur.isNoneV = false := by
      cases cur <;> simp_all [Value.pyLen, Value.isNoneV]
    by_cases hn : n = vs.length
    · simp [update_class_from_dict, ucfdItems, getattrV, hget, hcurdict, hvd,
        hIter, hpl, hlen, hnone, hn, setattrV]
    · simp [update_class_from_dict, ucfdItems, getattrV, hget, hcurdict, hvd,
        hIter, hpl, hlen, hnone, hn]

/-- C4 witness: the spec's own pair of examples — current `[1,2,3]` with
incoming `[4,5,6]` assigns; with incoming `[1,2]` it fails with
expected 3, received 2. -/
theorem claimC4_witness :
    update_class_from_dict [] (.vobj "C" [("field", .vseq [.vint 1, .vint 2, .vint 3])])
      [("field", .vseq [.vint 4, .vint 5, .vint 6])] ""
      = (.vobj "C" [("field", .vseq [.vint 4, .vint 5, .vint 6])],
         [("field", .vseq [.vint 4, .vint 5, .vint 6])], none) ∧
    update_class_from_dict [] (.vobj "C" [("field", .vseq [.vint 1, .vint 2, .vint 3])])
      [("field", .vseq [.vint 1, .vint 2])] ""
      = (.vobj "C" [("field", .vseq [.vint 1, .vint 2, .vint 3])],
         [("field", .vseq [.vint 1, .vint 2])],
         some (.incorrectLength "/field" 3 2)) := by
  constructor
  · have h := claimC4_amended [] "C" "field" "" [("field", .vseq [.vint 1, .vint 2, .vint 3])]
      (.vseq [.vint 1, .vint 2, .vint 3]) [.vint 4, .vint 5, .vint 6] rfl rfl
    simpa [Value.pyLen, Value.isNoneV, setField] using h
  · have h := claimC4_amended [] "C" "field" "" [("field", .vseq [.vint 1, .vint 2, .vint 3])]
      (.vseq [.vint 1, .vint 2, .vint 3]) [.vint 1, .vint 2] rfl rfl
    simpa [Value.pyLen, Value.isNoneV] using h

mutual

/-- No value the serialization loop produces is a raw callable, and every
mapping it produces is callable-free at all mapping levels. -/
theorem serVal_no_raw : ∀ v : Value,
    (serVal v).isCallable = false ∧ noRawCallableAtMapLevels (serVal v) = true
  | .vint _ => ⟨rfl, rfl⟩
  | .vbool _ => ⟨rfl, rfl⟩
  | .vstr _ => ⟨rfl, rfl⟩
  | .vnone => ⟨rfl, rfl⟩
  | .vseq _ => ⟨rfl, rfl⟩
  | .vcallable _ _ => ⟨rfl, rfl⟩
  | .vdict d => by
      have h := ctdFields_no_raw d
      simp [serVal, Value.isCallable, Value.hasDunderDict, Value.isDict,
        noRawCallableAtMapLevels, h]
  | .vobj c fs => by
      have h := ctdFields_no_raw fs
      simp [serVal, Value.isCallable, Value.hasDunderDict, Value.isDict,
        noRawCallableAtMapLevels, h]

theorem ctdFields_no_raw : ∀ fs : List (String × Value),
    noRawCallableFieldsAux (ctdFields fs) = true
  | [] => rfl
  | (k, v) :: rest => by
      by_cases hk : startsWithDunder k
      · simp [ctdFields, hk, ctdFields_no_raw rest]
      · have hv := serVal_no_raw v
        simp [ctdFields, hk, noRawCallableFieldsAux, hv.1, hv.2,
          ctdFields_no_raw rest]

end

/-- C7 counterexample: a callable sitting inside a sequence-valued field
is copied into the output verbatim — the result of `class_to_dict`
contains a raw invocable, not its encoded string. -/
theorem claimC7_counterexample :
    class_to_dict (.vobj "C" [("fs", .vseq [.vcallable "m" "f"])])
      = .ok (.vdict [("fs", .vseq [.vcallable "m" "f"])]) ∧
    containsRawCallable (.vdict [("fs", .vseq [.vcallable "m" "f"])]) = true :=
  ⟨rfl, rfl⟩

/-- C7 (amended): in a mapping produced by `class_to_dict`, no value
bound directly at any mapping-nesting level is a raw invocable (each is
encoded as a `module:name` string); only invocables buried inside
sequence values escape this, passing through unchanged. -/
theorem claimC7_amended (obj d : Value) (h : class_to_dict obj = .ok d) :
    noRawCallableAtMapLevels d = true := by
  cases obj with
  | vint n => exact Except.noConfusion h
  | vbool b => exact Except.noConfusion h
  | vstr s => exact Except.noConfusion h
  | vnone => exact Except.noConfusion h
  | vseq xs => exact Except.noConfusion h
  | vdict fs =>
      have hd : Value.vdict (ctdFields fs) = d := Except.ok.inj h
      rw [← hd]
      exact ctdFields_no_raw fs
  | vobj c fs =>
      have hd : Value.vdict (ctdFields fs) = d := Except.ok.inj h
      rw [← hd]
      exact ctdFields_no_raw fs
  | vcallable m n =>
      have hd : Value.vdict [] = d := Except.ok.inj h
      rw [← hd]
      rfl

/-- C7 witness: the amended fact at a concrete object with a callable
field and a callable entry inside a dict field. -/
theorem claimC7_witness :
    noRawCallableAtMapLevels
      (.vdict [("a", .vstr "m:g"), ("d", .vdict [("g", .vstr "m:g")])]) = true :=
  claimC7_amended
    (.vobj "C" [("a", .vcallable "m" "g"), ("d", .vdict [("g", .vcallable "m" "g")])])
    _ rfl

theorem getField_eq_none_of_any (fs : List (String × Value)) (k : String)
    (h : (fs.any (fun q => q.1 == k)) = false) : getField fs k = none := by
  induction fs with
  | nil => rfl
  | cons p rest ih =>
    simp only [List.any_cons, Bool.or_eq_false_iff] at h
    unfold getField
    rw [List.find?_cons_of_neg _ (by simp [h.1])]
    exact ih h.2

theorem dictSet_absent (d : List (String × Value)) (k : String) (v : Value)
    (h : getField d k = none) : dictSet d k v = d ++ [(k, v)] := by
  unfold dictSet
  have hf : (d.find? (fun p => p.1 == k)).isSome = false := by
    unfold getField at h
    rcases hfind : d.find? (fun p => p.1 == k) with _ | p
    · simp [hfind]
    · rw [hfind] at h
      simp at h
  simp [hf]

theorem disjointKeys_push (nd acc : List (String × Value)) (k : String) (v : Value)
    (h1 : disjointKeys nd acc = true)
    (h2 : (nd.any (fun q => q.1 == k)) = false) :
    disjointKeys nd (acc ++ [(k, v)]) = true := by
  simp only [disjointKeys, List.all_eq_true, Bool.not_eq_true',
    List.any_eq_false] at h1 h2 ⊢
  intro p hp q hq
  rcases List.mem_append.mp hq with hq | hq
  · exact h1 p hp q hq
  · have : q = (k, v) := by simpa using hq
    subst this
    have := h2 p hp
    simp_all [BEq.comm]

/-- Building up an initially-disjoint dict: `update_dict` appends the
overlay's entries in order when none of its keys is already bound. -/
theorem update_dict_build : ∀ (nd acc : List (String × Value)),
    disjointKeys nd acc = true → nodupKeys nd = true → dwfFields nd = true →
    update_dict (.vdict acc) nd = .ok (.vdict (acc ++ nd))
  | [], acc => by
    intro _ _ _
    simp [update_dict]
  | (k, v) :: nd', acc => by
    intro hdisj hnodup hwf
    simp only [disjointKeys, List.all_eq_true] at hdisj
    have hka : (acc.any (fun q => q.1 == k)) = false := by
      have := hdisj (k, v) (by simp)
      simpa using this
    have hdisj' : disjointKeys nd' acc = true := by
      simp only [disjointKeys, List.all_eq_true]
      intro p hp
      exact hdisj p (by simp [hp])
    simp only [nodupKeys, Bool.and_eq_true] at hnodup
    simp only [dwfFields, Bool.and_eq_true] at hwf
    have hgf : getField acc k = none := getField_eq_none_of_any acc k hka
    have hdisj'' : disjointKeys nd' (acc ++ [(k, v)]) = true :=
      disjointKeys_push nd' acc k v hdisj' (by simpa using hnodup.1)
    have htail := update_dict_build nd' (acc ++ [(k, v)]) hdisj'' hnodup.2 hwf.2
    by_cases hv : v.isDict = true
    · match v, hv with
      | .vdict sd, _ =>
        simp only [dwfVal, Bool.and_eq_true] at hwf
        have hsub : update_dict (.vdict []) sd = .ok (.vdict sd) := by
          have := update_dict_build sd [] (by simp [disjointKeys])
            hwf.1.1 hwf.1.2
          simpa using this
        simp [update_dict, dictGetD, hgf, hsub, Bind.bind, Except.bind,
          Value.isDict, dictItems, dictSet_absent acc k _ hgf]
        simpa using htail
    · have hset := dictSet_absent acc k v hgf
      simp [update_dict, hv, hset]
      simpa using htail
termination_by nd => sizeOf nd
decreasing_by
  all_goals simp_wf
  all_goals omega

/-- C8 counterexample: with `base = {"x": 1}` and `overlay =
{"x": {"a": 2}}` the claim prescribes overwriting `base["x"]` with the
mapping, but `update_dict` recurses into the integer `1` and crashes
with a `TypeError` from `1["a"] = 2`. -/
theorem claimC8_counterexample :
    update_dict (.vdict [("x", .vint 1)]) [("x", .vdict [("a", .vint 2)])]
      = .error (.typeErrorNoItemAssign .tInt) := by
  simp [update_dict, dictGetD, getField, dictItems, Value.isDict,
    Value.pyTypeOf, Bind.bind, Except.bind]

/-- C8 (amended): per overlay entry `(key, value)`: a non-mapping
`value` overwrites `base[key]`; a mapping `value` with `base[key]` bound
to a mapping merges recursively; a mapping `value` against a bound
non-mapping `base[key]` does not overwrite but fails (the recursion hits
`.get`/item assignment on a non-dict) whenever `value` is non-empty; and
a mapping `value` under an unbound key is merged into a fresh empty dict
and bound, which for well-formed data equals binding `value` itself. -/
theorem claimC8_amended :
    (∀ (od : List (String × Value)) (k : String) (v : Value), v.isDict = false →
      update_dict (.vdict od) [(k, v)] = .ok (.vdict (dictSet od k v))) ∧
    (∀ (od : List (String × Value)) (k : String)
        (nd bd : List (String × Value)), getField od k = some (.vdict bd) →
      update_dict (.vdict od) [(k, .vdict nd)]
        = (update_dict (.vdict bd) nd).map (fun m => .vdict (dictSet od k m))) ∧
    (∀ (od : List (String × Value)) (k : String) (nd : List (String × Value))
        (w : Value), getField od k = some w → w.isDict = false → nd ≠ [] →
      ∃ e, update_dict (.vdict od) [(k, .vdict nd)] = .error e) ∧
    (∀ (od : List (String × Value)) (k : String) (nd : List (String × Value)),
      getField od k = none → dwfVal (.vdict nd) = true →
      update_dict (.vdict od) [(k, .vdict nd)]
        = .ok (.vdict (dictSet od k (.vdict nd)))) := by
  refine ⟨?_, ?_, ?_, ?_⟩
  · intro od k v hv
    simp [update_dict, hv]
  · intro od k nd bd hget
    rcases h : update_dict (.vdict bd) nd with e | m <;>
      simp [update_dict, dictGetD, hget, h, Bind.bind, Except.bind, Except.map,
        Value.isDict, dictItems]
  · intro od k nd w hget hw hne
    match nd, hne with
    | (k2, v2) :: nd', _ =>
      have hsub : ∃ e, update_dict w ((k2, v2) :: nd') = .error e := by
        by_cases hv2 : v2.isDict = true <;>
          cases w <;> simp [Value.isDict] at hw ⊢ <;>
            simp [update_dict, hv2]
      obtain ⟨e, he⟩ := hsub
      exact ⟨e, by simp [update_dict, dictGetD, hget, he, Bind.bind, Except.bind,
        Value.isDict, dictItems]⟩
  · intro od k nd hget hwf
    simp only [dwfVal, Bool.and_eq_true] at hwf
    have hsub : update_dict (.vdict []) nd = .ok (.vdict nd) := by
      have := update_dict_build nd [] (by simp [disjointKeys]) hwf.1 hwf.2
      simpa using this
    simp [update_dict, dictGetD, hget, hsub, Bind.bind, Except.bind,
      Value.isDict, dictItems]

/-- C8 witness: each clause of the amended claim at a concrete input. -/
theorem claimC8_witness :
    update_dict (.vdict [("a", .vint 1)]) [("b", .vint 2)]
      = .ok (.vdict (dictSet [("a", .vint 1)] "b" (.vint 2))) ∧
    update_dict (.vdict [("x", .vdict [("a", .vint 1)])]) [("x", .vdict [("a", .vint 9)])]
      = (update_dict (.vdict [("a", .vint 1)]) [("a", .vint 9)]).map
          (fun m => .vdict (dictSet [("x", .vdict [("a", .vint 1)])] "x" m)) ∧
    (∃ e, update_dict (.vdict [("x", .vint 1)]) [("x", .vdict [("a", .vint 2)])]
      = .error e) ∧
    update_dict (.vdict []) [("y", .vdict [("b", .vint 3)])]
      = .ok (.vdict (dictSet [] "y" (.vdict [("b", .vint 3)]))) :=
  ⟨claimC8_amended.1 [("a", .vint 1)] "b" (.vint 2) rfl,
   claimC8_amended.2.1 [("x", .vdict [("a", .vint 1)])] "x" [("a", .vint 9)]
     [("a", .vint 1)] rfl,
   claimC8_amended.2.2.1 [("x", .vint 1)] "x" [("a", .vint 2)] (.vint 1) rfl rfl
     (by simp),
   claimC8_amended.2.2.2 [] "y" [("b", .vint 3)] rfl (by decide)⟩

theorem decode_noCallTop (env : ModuleEnv) (d : List (String × Value)) :
    ∀ val : Value, noCallTop d = true →
      decodeCallableEntries env d val = (val, none) := by
  induction d with
  | nil => intro val _; rfl
  | cons p rest ih =>
    obtain ⟨k, v⟩ := p
    intro val h
    simp only [noCallTop, List.all_cons, Bool.and_eq_true, Bool.not_eq_true'] at h
    simp [decodeCallableEntries, h.1]
    exact ih val h.2

theorem stc_ok_isCallable (env : ModuleEnv) (w c : Value)
    (h : _string_to_callable env w = .ok c) : c.isCallable = true := by
  cases w <;> try exact Except.noConfusion h
  case vstr s =>
    rcases hs : pySplitColon s with _ | ⟨m, _ | ⟨a, _ | ⟨z, t⟩⟩⟩
    · simp [_string_to_callable, hs] at h
    · simp [_string_to_callable, hs] at h
    · rcases hm : findModule env m with _ | md
      · simp [_string_to_callable, hs, hm] at h
      · rcases ha : findAttr md a with _ | v
        · simp [_string_to_callable, hs, hm, ha] at h
        · by_cases hc : v.isCallable = true
          · simp [_string_to_callable, hs, hm, ha, hc] at h
            exact h ▸ hc
          · simp [_string_to_callable, hs, hm, ha, hc] at h
    · simp [_string_to_callable, hs] at h

theorem stc_callable_err (env : ModuleEnv) (c : Value) (h : c.isCallable = true) :
    ∀ x, _string_to_callable env c ≠ .ok x := by
  cases c <;> simp [Value.isCallable] at h
  intro _x
  simp [_string_to_callable]

theorem entry_rel_trans (env : ModuleEnv) (w w₁ w₂ : Value)
    (h1 : entrySameOrDecoded env w w₁) (h2 : entrySameOrDecoded env w₁ w₂) :
    entrySameOrDecoded env w w₂ := by
  rcases h1 with rfl | hdec1
  · exact h2
  · rcases h2 with rfl | hdec2
    · exact Or.inr hdec1
    · exact absurd hdec2 (stc_callable_err env w₁ (stc_ok_isCallable env w w₁ hdec1) w₂)

theorem forall2_entry_refl (env : ModuleEnv) (l : List (String × Value)) :
    List.Forall₂ (fun p q => p.1 = q.1 ∧ entrySameOrDecoded env p.2 q.2) l l :=
  List.forall₂_same.mpr (fun _ _ => ⟨rfl, Or.inl rfl⟩)

theorem forall2_entry_trans (env : ModuleEnv) {l1 l2 l3 : List (String × Value)}
    (h12 : List.Forall₂ (fun p q => p.1 = q.1 ∧ entrySameOrDecoded env p.2 q.2) l1 l2)
    (h23 : List.Forall₂ (fun p q => p.1 = q.1 ∧ entrySameOrDecoded env p.2 q.2) l2 l3) :
    List.Forall₂ (fun p q => p.1 = q.1 ∧ entrySameOrDecoded env p.2 q.2) l1 l3 := by
  induction h12 generalizing l3 with
  | nil =>
    cases h23
    exact List.Forall₂.nil
  | cons hpq htail ih =>
    cases h23 with
    | cons hqr h' =>
      exact List.Forall₂.cons
        ⟨hpq.1.trans hqr.1, entry_rel_trans env _ _ _ hpq.2 hqr.2⟩ (ih h')

theorem setField_cons (p : String × Value) (rest : List (String × Value))
    (k : String) (c : Value) :
    setField (p :: rest) k c
      = (if p.1 == k then (k, c) else p) :: setField rest k c := rfl

theorem getField_cons (p : String × Value) (rest : List (String × Value))
    (k : String) :
    getField (p :: rest) k = if p.1 == k then some p.2 else getField rest k := by
  by_cases hp : (p.1 == k) = true
  · rw [getField, List.find?_cons_of_pos (p := fun q : String × Value => q.1 == k) _ hp,
      if_pos hp]
    rfl
  · rw [getField,
      List.find?_cons_of_neg (p := fun q : String × Value => q.1 == k) _ (by simp [hp]),
      if_neg hp]
    rfl

theorem nodupKeys_cons (p : String × Value) (rest : List (String × Value)) :
    nodupKeys (p :: rest) = (!(rest.any (fun q => q.1 == p.1)) && nodupKeys rest) := rfl

theorem setField_absent (vd : List (String × Value)) (k : String) (c : Value)
    (h : (vd.any (fun q => q.1 == k)) = false) : setField vd k c = vd := by
  induction vd with
  | nil => rfl
  | cons p rest ih =>
    rw [List.any_cons, Bool.or_eq_false_iff] at h
    rw [setField_cons, if_neg (by simp [h.1]), ih h.2]

theorem getField_setField_ne (vd : List (String × Value)) (k : String) (c : Value)
    (k' : String) (h : (k' == k) = false) :
    getField (setField vd k c) k' = getField vd k' := by
  induction vd with
  | nil => rfl
  | cons p rest ih =>
    rw [setField_cons]
    by_cases hp : (p.1 == k) = true
    · have hpk : p.1 = k := by simpa using hp
      have hkk' : (k == k') = false := by
        simp only [beq_eq_false_iff_ne] at h ⊢
        exact fun e => h e.symm
      have hpx : (p.1 == k') = false := by rw [hpk]; exact hkk'
      rw [if_pos hp, getField_cons, getField_cons]
      rw [show ((k, c).1 == k') = false from hkk', if_neg (by simp), if_neg (by simp [hpx])]
      exact ih
    · rw [if_neg hp, getField_cons, getField_cons]
      by_cases hp' : (p.1 == k') = true
      · rw [if_pos hp', if_pos hp']
      · rw [if_neg hp', if_neg hp']
        exact ih

theorem any_key_setField (rest : List (String × Value)) (k : String) (c : Value)
    (x : String) :
    ((setField rest k c).any (fun q => q.1 == x)) = (rest.any (fun q => q.1 == x)) := by
  induction rest with
  | nil => rfl
  | cons p r ih =>
    rw [setField_cons, List.any_cons, List.any_cons, ih]
    by_cases hp : (p.1 == k) = true
    · have hpk : p.1 = k := by simpa using hp
      rw [if_pos hp, hpk]
    · rw [if_neg hp]

theorem nodupKeys_setField (vd : List (String × Value)) (k : String) (c : Value) :
    nodupKeys (setField vd k c) = nodupKeys vd := by
  induction vd with
  | nil => rfl
  | cons p rest ih =>
    rw [setField_cons]
    by_cases hp : (p.1 == k) = true
    · have hpk : p.1 = k := by simpa using hp
      rw [if_pos hp, nodupKeys_cons, nodupKeys_cons, any_key_setField, ih, hpk]
    · rw [if_neg hp, nodupKeys_cons, nodupKeys_cons, any_key_setField, ih]

theorem forall2_setField (env : ModuleEnv) (vd : List (String × Value)) (k : String)
    (w c : Value) (hnodup : nodupKeys vd = true) (hget : getField vd k = some w)
    (hdec : _string_to_callable env w = .ok c) :
    List.Forall₂ (fun p q => p.1 = q.1 ∧ entrySameOrDecoded env p.2 q.2)
      vd (setField vd k c) := by
  induction vd with
  | nil => exact absurd hget (by simp [getField])
  | cons p rest ih =>
    rw [nodupKeys_cons, Bool.and_eq_true, Bool.not_eq_true'] at hnodup
    rw [setField_cons]
    by_cases hp : (p.1 == k) = true
    · have hpk : p.1 = k := by simpa using hp
      have hw : p.2 = w := by
        rw [getField_cons, if_pos hp] at hget
        exact Option.some.inj hget
      have hrest : setField rest k c = rest := by
        refine setField_absent rest k c ?_
        rw [← hpk]
        exact hnodup.1
      rw [if_pos hp, hrest]
      exact List.Forall₂.cons ⟨hpk, Or.inr (hw ▸ hdec)⟩ (forall2_entry_refl env rest)
    · have hget' : getField rest k = some w := by
        rw [getField_cons, if_neg hp] at hget
        exact hget
      rw [if_neg hp]
      exact List.Forall₂.cons ⟨rfl, Or.inl rfl⟩ (ih hnodup.2 hget')

/-- The callable-decoding loop of the Mapping branch, on a well-formed
current mapping whose callable-valued keys all have decodable entries in
the incoming dict: it succeeds, and the resulting dict differs from the
incoming one only by replacing those entries with their decoded
callables (same keys, same order). -/
theorem decodeEntries_spec (env : ModuleEnv) :
    ∀ (cur vd : List (String × Value)),
    nodupKeys cur = true → nodupKeys vd = true →
    (∀ p ∈ cur, p.2.isCallable = true →
      ∃ w c, getField vd p.1 = some w ∧ _string_to_callable env w = .ok c) →
    ∃ vd', decodeCallableEntries env cur (.vdict vd) = (.vdict vd', none) ∧
      List.Forall₂ (fun p q => p.1 = q.1 ∧ entrySameOrDecoded env p.2 q.2) vd vd'
  | [], vd => fun _ _ _ => ⟨vd, rfl, forall2_entry_refl env vd⟩
  | (k, v) :: rest, vd => fun hncur hnvd hcall => by
    rw [nodupKeys_cons, Bool.and_eq_true, Bool.not_eq_true'] at hncur
    by_cases hv : v.isCallable = true
    · obtain ⟨w, c, hget, hdec⟩ := hcall (k, v) (by simp) hv
      have hgi : pyGetItem (.vdict vd) k = .ok w := by simp [pyGetItem, hget]
      have hfind : (vd.find? (fun p => p.1 == k)).isSome = true := by
        unfold getField at hget
        rcases hf : vd.find? (fun p => p.1 == k) with _ | q
        · rw [hf] at hget
          exact Option.noConfusion hget
        · simp [hf]
      have hsi : pySetItem (.vdict vd) k c = .vdict (setField vd k c) := by
        simp [pySetItem, dictSet, hfind]
      have hnvd' : nodupKeys (setField vd k c) = true := by
        rw [nodupKeys_setField]
        exact hnvd
      have hcall' : ∀ p ∈ rest, p.2.isCallable = true →
          ∃ w' c', getField (setField vd k c) p.1 = some w' ∧
            _string_to_callable env w' = .ok c' := by
        intro p hp hpc
        obtain ⟨w', c', hg', hd'⟩ := hcall p (by simp [hp]) hpc
        refine ⟨w', c', ?_, hd'⟩
        rw [getField_setField_ne]
        · exact hg'
        · have := hncur.1
          rw [List.any_eq_false] at this
          simpa using this p hp
      obtain ⟨vd', heq, hrel⟩ :=
        decodeEntries_spec env rest (setField vd k c) hncur.2 hnvd' hcall'
      refine ⟨vd', ?_,
        forall2_entry_trans env (forall2_setField env vd k w c hnvd hget hdec) hrel⟩
      simp [decodeCallableEntries, hv, hgi, hdec, hsi, heq]
    · have hcall' : ∀ p ∈ rest, p.2.isCallable = true →
          ∃ w' c', getField vd p.1 = some w' ∧ _string_to_callable env w' = .ok c' :=
        fun p hp hpc => hcall p (by simp [hp]) hpc
      obtain ⟨vd', heq, hrel⟩ := decodeEntries_spec env rest vd hncur.2 hnvd hcall'
      exact ⟨vd', by simp [decodeCallableEntries, hv, heq], hrel⟩

/-- C2 counterexample: with the field currently `{"f": <callable>}` and
incoming data `{"m": {}}` — the callable's key absent from the incoming
dict — the claim prescribes skipping the decode and replacing the field
wholesale with `{}`, but the code reads `value["f"]` and raises
`KeyError`, leaving the field untouched. -/
theorem claimC2_counterexample :
    update_class_from_dict [] (.vobj "C" [("m", .vdict [("f", .vcallable "math" "cos")])])
      [("m", .vdict [])] ""
      = (.vobj "C" [("m", .vdict [("f", .vcallable "math" "cos")])],
         [("m", .vdict [])], some (.keyErrorItem "f")) := by
  simp [update_class_from_dict, ucfdItems, decodeCallableEntries, getattrV,
    getField, setattrV, setField, dictItems, dictSet, pyGetItem, pySetItem,
    _string_to_callable, Value.isCallable, Value.isDict]

/-- C2 (amended): when the field at `key` currently holds a generic
mapping `cur`, `update_class_from_dict(obj, {key: value})` behaves as
follows.  If no entry of `cur` is callable, the incoming `value` —
whatever it is — replaces the field wholesale (entries of `cur` absent
from `value` are dropped) and `data` is unchanged.  If `cur` has
callable entries, each such key must be present in the incoming dict
with a decodable value — absence raises `KeyError` instead of being
skipped — and on success the field is replaced wholesale by the incoming
dict with exactly those entries overwritten in place by their decoded
callables. -/
theorem claimC2_amended :
    (∀ (env : ModuleEnv) (cls key ns : String) (fields : List (String × Value))
        (cur : List (String × Value)) (value : Value),
      getField fields key = some (.vdict cur) → noCallTop cur = true →
      update_class_from_dict env (.vobj cls fields) [(key, value)] ns
        = (.vobj cls (setField fields key value), [(key, value)], none)) ∧
    (∀ (env : ModuleEnv) (cls key ns : String) (fields : List (String × Value))
        (cur vd : List (String × Value)),
      getField fields key = some (.vdict cur) →
      nodupKeys cur = true → nodupKeys vd = true →
      (∀ p ∈ cur, p.2.isCallable = true →
        ∃ w c, getField vd p.1 = some w ∧ _string_to_callable env w = .ok c) →
      ∃ vd', update_class_from_dict env (.vobj cls fields) [(key, .vdict vd)] ns
          = (.vobj cls (setField fields key (.vdict vd')), [(key, .vdict vd')], none)
        ∧ List.Forall₂ (fun p q => p.1 = q.1 ∧ entrySameOrDecoded env p.2 q.2)
            vd vd') := by
  constructor
  · intro env cls key ns fields cur value hget hnc
    simp [update_class_from_dict, ucfdItems, getattrV, hget, Value.isDict,
      dictItems, decode_noCallTop env cur value hnc, setattrV]
  · intro env cls key ns fields cur vd hget hncur hnvd hcall
    obtain ⟨vd', heq, hrel⟩ := decodeEntries_spec env cur vd hncur hnvd hcall
    refine ⟨vd', ?_, hrel⟩
    simp [update_class_from_dict, ucfdItems, getattrV, hget, Value.isDict,
      dictItems, heq, setattrV]

/-- C2 witness: the spec's shallow-overwrite example (`"b"` dropped), and
a callable-entry decode on a concrete module environment. -/
theorem claimC2_witness :
    update_class_from_dict [] (.vobj "C" [("field", .vdict [("a", .vint 1), ("b", .vint 2)])])
      [("field", .vdict [("a", .vint 9)])] ""
      = (.vobj "C" (setField [("field", .vdict [("a", .vint 1), ("b", .vint 2)])]
          "field" (.vdict [("a", .vint 9)])),
         [("field", .vdict [("a", .vint 9)])], none) ∧
    (∃ vd', update_class_from_dict [⟨"mymod", [("g", .vcallable "mymod" "g")]⟩]
        (.vobj "C" [("m", .vdict [("f", .vcallable "math" "cos")])])
        [("m", .vdict [("f", .vstr "mymod:g")])] ""
        = (.vobj "C" (setField [("m", .vdict [("f", .vcallable "math" "cos")])]
            "m" (.vdict vd')),
           [("m", .vdict vd')], none)
      ∧ List.Forall₂
          (fun p q => p.1 = q.1 ∧
            entrySameOrDecoded [⟨"mymod", [("g", .vcallable "mymod" "g")]⟩] p.2 q.2)
          [("f", .vstr "mymod:g")] vd') :=
  ⟨claimC2_amended.1 [] "C" "field" "" [("field", .vdict [("a", .vint 1), ("b", .vint 2)])]
      [("a", .vint 1), ("b", .vint 2)] (.vdict [("a", .vint 9)]) rfl rfl,
   claimC2_amended.2 [⟨"mymod", [("g", .vcallable "mymod" "g")]⟩] "C" "m" ""
      [("m", .vdict [("f", .vcallable "math" "cos")])]
      [("f", .vcallable "math" "cos")] [("f", .vstr "mymod:g")] rfl rfl rfl
      (by
        intro p hp hpc
        rw [List.mem_singleton] at hp
        subst hp
        exact ⟨.vstr "mymod:g", .vcallable "mymod" "g", rfl, rfl⟩)⟩

mutual

/-- Values accepted by `serFixedVal` are fixed points of the
serialization loop. -/
theorem serVal_fixed : ∀ v : Value, serFixedVal v = true → serVal v = v
  | .vint _ => fun _ => rfl
  | .vbool _ => fun _ => rfl
  | .vstr _ => fun _ => rfl
  | .vnone => fun _ => rfl
  | .vseq _ => fun _ => rfl
  | .vcallable _ _ => fun h => by simp [serFixedVal] at h
  | .vobj _ _ => fun h => by simp [serFixedVal] at h
  | .vdict d => fun h => by
      have hd : ctdFields d = d := ctdFields_fixed d h
      simp [serVal, Value.isCallable, Value.hasDunderDict, Value.isDict, hd]

/-- Item lists accepted by `serFixedFields` are fixed points of
`ctdFields`. -/
theorem ctdFields_fixed : ∀ d : List (String × Value),
    serFixedFields d = true → ctdFields d = d
  | [] => fun _ => rfl
  | (k, v) :: rest => fun h => by
      simp only [serFixedFields, Bool.and_eq_true, Bool.not_eq_true'] at h
      simp [ctdFields, h.1.1, serVal_fixed v h.1.2, ctdFields_fixed rest h.2]

end

theorem getField_append (pre l : List (String × Value)) (k : String)
    (h : (pre.any (fun q => q.1 == k)) = false) :
    getField (pre ++ l) k = getField l k := by
  induction pre with
  | nil => rfl
  | cons p rest ih =>
    rw [List.any_cons, Bool.or_eq_false_iff] at h
    rw [List.cons_append, getField_cons, if_neg (by simp [h.1])]
    exact ih h.2

theorem setField_append (l1 l2 : List (String × Value)) (k : String) (w : Value) :
    setField (l1 ++ l2) k w = setField l1 k w ++ setField l2 k w := by
  simp [setField]

theorem rtFields_keys : ∀ (fs fs' : List (String × Value)),
    rtFields fs fs' = true →
    ∀ x : String, (fs'.any (fun q => q.1 == x)) = (fs.any (fun q => q.1 == x))
  | [], [] => fun _ _ => rfl
  | [], q :: fs' => fun h => absurd h (by simp [rtFields])
  | p :: fs, [] => fun h => absurd h (by simp [rtFields])
  | (k, v) :: fs, (k', v') :: fs' => fun h x => by
      simp only [rtFields, Bool.and_eq_true] at h
      have hk : k = k' := by simpa using h.1.1.1.1
      rw [List.any_cons, List.any_cons, rtFields_keys fs fs' h.2, ← hk]

/-- Merging the serialization of `fs` into an object whose fields are
`pre ++ fs'` — `pre` the already-processed prefix (key-disjoint from the
data), `fs'` round-trip compatible with `fs` — reproduces `fs` exactly
and leaves the serialized data untouched. -/
theorem ucfd_roundtrip_aux (env : ModuleEnv) :
    ∀ (fs fs' pre : List (String × Value)) (cls ns : String),
    rtFields fs fs' = true → disjointKeys pre fs = true →
    ucfdItems env (.vobj cls (pre ++ fs')) (ctdFields fs) ns
      = (.vobj cls (pre ++ fs), ctdFields fs, none)
  | [], [], pre, cls, ns => fun _ _ => by simp [ctdFields, ucfdItems]
  | [], q :: fs', pre, cls, ns => fun h _ => absurd h (by simp [rtFields])
  | p :: fs, [], pre, cls, ns => fun h _ => absurd h (by simp [rtFields])
  | (k, v) :: fs, (k', v') :: fs', pre, cls, ns => fun hrt hdisj => by
    simp only [rtFields, Bool.and_eq_true, Bool.not_eq_true'] at hrt
    obtain ⟨⟨⟨⟨hkk, hdund⟩, hnod⟩, hval⟩, htl⟩ := hrt
    have hk' : k = k' := by simpa using hkk
    subst hk'
    have hpre_k : (pre.any (fun q => q.1 == k)) = false := by
      rw [List.any_eq_false]
      intro p hp
      have hall := (List.all_eq_true.mp hdisj) p hp
      rw [Bool.not_eq_true', List.any_eq_false] at hall
      have hh := hall (k, v) (by simp)
      simp only [beq_iff_eq] at hh ⊢
      exact fun e => hh e.symm
    have hfs'_k : (fs'.any (fun q => q.1 == k)) = false := by
      rw [rtFields_keys fs fs' htl]
      exact hnod
    have hdisj_tl : disjointKeys pre fs = true := by
      rw [disjointKeys, List.all_eq_true]
      intro p hp
      have hall := (List.all_eq_true.mp hdisj) p hp
      rw [Bool.not_eq_true', List.any_eq_false] at hall
      rw [Bool.not_eq_true', List.any_eq_false]
      intro q hq
      exact hall q (by simp [hq])
    have hdisj' : disjointKeys (pre ++ [(k, v)]) fs = true := by
      rw [disjointKeys, List.all_eq_true]
      intro p hp
      rcases List.mem_append.mp hp with hp | hp
      · exact (List.all_eq_true.mp hdisj_tl) p hp
      · have hpkv : p = (k, v) := by simpa using hp
        subst hpkv
        rw [Bool.not_eq_true', List.any_eq_false]
        intro q hq
        have := List.any_eq_false.mp hnod q hq
        simpa using this
    have hctd : ctdFields ((k, v) :: fs) = (k, serVal v) :: ctdFields fs := by
      simp [ctdFields, hdund]
    have hget : getField (pre ++ (k, v') :: fs') k = some v' := by
      rw [getField_append pre _ k hpre_k, getField_cons, if_pos (by simp)]
    have hsetf : ∀ w : Value,
        setField (pre ++ (k, v') :: fs') k w = pre ++ (k, w) :: fs' := by
      intro w
      rw [setField_append, setField_absent pre k w hpre_k, setField_cons,
        if_pos (by simp), setField_absent fs' k w hfs'_k]
    have htail0 := ucfd_roundtrip_aux env fs fs' (pre ++ [(k, v)]) cls ns htl hdisj'
    rw [List.append_assoc, List.append_assoc] at htail0
    have htail : ucfdItems env (.vobj cls (pre ++ (k, v) :: fs')) (ctdFields fs) ns
        = (.vobj cls (pre ++ (k, v) :: fs), ctdFields fs, none) := by
      simpa using htail0
    rw [hctd]
    cases v with
    | vint n =>
      cases v' <;> simp [rtVal] at hval
      case vint n' =>
        have hser : serVal (.vint n) = .vint n := rfl
        rw [hser]
        simp [ucfdItems, getattrV, hget, Value.isDict, Value.isIterablePy,
          Value.isStrPy, Value.isCallable, Value.isinstancePy, Value.pyTypeOf,
          setattrV, hsetf, htail]
    | vbool b =>
      cases v' <;> simp [rtVal] at hval
      case vbool b' =>
        have hser : serVal (.vbool b) = .vbool b := rfl
        rw [hser]
        simp [ucfdItems, getattrV, hget, Value.isDict, Value.isIterablePy,
          Value.isStrPy, Value.isCallable, Value.isinstancePy, Value.pyTypeOf,
          setattrV, hsetf, htail]
    | vstr s =>
      cases v' <;> simp [rtVal] at hval
      case vstr s' =>
        have hser : serVal (.vstr s) = .vstr s := rfl
        rw [hser]
        simp [ucfdItems, getattrV, hget, Value.isDict, Value.isIterablePy,
          Value.isStrPy, Value.isCallable, Value.isinstancePy, Value.pyTypeOf,
          setattrV, hsetf, htail]
    | vnone =>
      cases v' <;> simp [rtVal] at hval
      case vnone =>
        have hser : serVal .vnone = .vnone := rfl
        rw [hser]
        simp [ucfdItems, getattrV, hget, Value.isDict, Value.isIterablePy,
          Value.isStrPy, Value.isCallable, Value.isinstancePy, Value.pyTypeOf,
          setattrV, hsetf, htail]
    | vseq xs =>
      cases v' <;> simp [rtVal] at hval
      case vseq ys =>
        have hlen : xs.length = ys.length := hval
        have hser : serVal (.vseq xs) = .vseq xs := rfl
        rw [hser]
        simp [ucfdItems, getattrV, hget, Value.isDict, Value.isIterablePy,
          Value.isStrPy, Value.isCallable, Value.pyLen, Value.isNoneV,
          setattrV, hsetf, htail, hlen]
    | vdict d =>
      cases v' <;> simp [rtVal] at hval
      case vdict d' =>
        have hser : serVal (.vdict d) = .vdict d := by
          have : serVal (.vdict d) = .vdict (ctdFields d) := rfl
          rw [this, ctdFields_fixed d hval.1]
        rw [hser]
        simp [ucfdItems, getattrV, hget, Value.isDict, dictItems,
          decode_noCallTop env d' (.vdict d) hval.2, setattrV, hsetf, htail]
    | vobj c2 gs =>
      cases v' <;> simp [rtVal] at hval
      case vobj c2' gs' =>
        have hc2 : c2 = c2' := hval.1
        subst hc2
        have hrec := ucfd_roundtrip_aux env gs gs' [] c2 (ns ++ "/" ++ k)
          hval.2 (by rfl)
        rw [List.nil_append, List.nil_append] at hrec
        have hser : serVal (.vobj c2 gs) = .vdict (ctdFields gs) := rfl
        rw [hser]
        simp [ucfdItems, getattrV, hget, Value.isDict, dictItems, hrec,
          setattrV, hsetf, htail]
    | vcallable m2 n2 =>
      cases v' <;> simp [rtVal] at hval
termination_by fs _ _ _ _ => sizeOf fs
decreasing_by
  all_goals simp_wf
  all_goals omega

/-- C1 counterexample: a structured object with no invocable fields whose
sequence field has a different length from the default-constructed
object's default: serialization succeeds, but merging it back raises the
length-mismatch error and the target keeps its default — the round trip
does not restore the object. -/
theorem claimC1_counterexample :
    class_to_dict (.vobj "Cfg" [("x", .vseq [.vint 1, .vint 2])])
      = .ok (.vdict [("x", .vseq [.vint 1, .vint 2])]) ∧
    update_class_from_dict [] (.vobj "Cfg" [("x", .vseq [.vint 0])])
      [("x", .vseq [.vint 1, .vint 2])] ""
      = (.vobj "Cfg" [("x", .vseq [.vint 0])], [("x", .vseq [.vint 1, .vint 2])],
         some (.incorrectLength "/x" 1 2)) ∧
    Value.vobj "Cfg" [("x", .vseq [.vint 0])]
      ≠ .vobj "Cfg" [("x", .vseq [.vint 1, .vint 2])] := by
  refine ⟨rfl, ?_, by simp⟩
  simp [update_class_from_dict, ucfdItems, getattrV, getField, Value.isDict,
    Value.isIterablePy, Value.isStrPy, Value.pyLen, Value.isNoneV,
    Value.pyTypeOf, List.find?]

/-- C1 (amended): serializing a structured object `o` with
`class_to_dict` and merging the result into a default-constructed `o'`
of the same schema with `update_class_from_dict` restores `o` field for
field — provided the two objects are round-trip compatible
(`rtFields`): matching non-reserved field names of matching kinds with
no invocables anywhere relevant, sequence fields of `o` having the same
length as the corresponding default, and generic-mapping fields of `o`
containing only plain serialization-fixed values.  The merge also
returns the serialized data unchanged and no error. -/
theorem claimC1_amended (env : ModuleEnv) (cls : String)
    (fields fields' : List (String × Value))
    (h : rtFields fields fields' = true) :
    class_to_dict (.vobj cls fields) = .ok (.vdict (ctdFields fields)) ∧
    update_class_from_dict env (.vobj cls fields') (ctdFields fields) ""
      = (.vobj cls fields, ctdFields fields, none) := by
  constructor
  · rfl
  · have hmain := ucfd_roundtrip_aux env fields fields' [] cls "" h (by rfl)
    rw [List.nil_append, List.nil_append] at hmain
    exact hmain

/-- C1 witness: a full round trip through every value kind — scalars,
None, a sequence, a nested dict-of-dicts and a nested configuration
object. -/
theorem claimC1_witness :
    rtFields
      [("count", .vint 2), ("name", .vstr "anymal"), ("active", .vbool true),
       ("extra", .vnone), ("joints", .vseq [.vstr "hip", .vstr "knee"]),
       ("gains", .vdict [("p", .vint 10), ("d", .vdict [("q", .vint 3)])]),
       ("sub", .vobj "SubCfg" [("flag", .vbool false), ("ids", .vseq [.vint 1])])]
      [("count", .vint 0), ("name", .vstr ""), ("active", .vbool false),
       ("extra", .vnone), ("joints", .vseq [.vstr "a", .vstr "b"]),
       ("gains", .vdict [("p", .vint 0)]),
       ("sub", .vobj "SubCfg" [("flag", .vbool true), ("ids", .vseq [.vint 0])])]
      = true ∧
    (class_to_dict (.vobj "RobotCfg"
        [("count", .vint 2), ("name", .vstr "anymal"), ("active", .vbool true),
         ("extra", .vnone), ("joints", .vseq [.vstr "hip", .vstr "knee"]),
         ("gains", .vdict [("p", .vint 10), ("d", .vdict [("q", .vint 3)])]),
         ("sub", .vobj "SubCfg" [("flag", .vbool false), ("ids", .vseq [.vint 1])])])
      = .ok (.vdict (ctdFields
        [("count", .vint 2), ("name", .vstr "anymal"), ("active", .vbool true),
         ("extra", .vnone), ("joints", .vseq [.vstr "hip", .vstr "knee"]),
         ("gains", .vdict [("p", .vint 10), ("d", .vdict [("q", .vint 3)])]),
         ("sub", .vobj "SubCfg" [("flag", .vbool false), ("ids", .vseq [.vint 1])])])) ∧
     update_class_from_dict [] (.vobj "RobotCfg"
        [("count", .vint 0), ("name", .vstr ""), ("active", .vbool false),
         ("extra", .vnone), ("joints", .vseq [.vstr "a", .vstr "b"]),
         ("gains", .vdict [("p", .vint 0)]),
         ("sub", .vobj "SubCfg" [("flag", .vbool true), ("ids", .vseq [.vint 0])])])
       (ctdFields
        [("count", .vint 2), ("name", .vstr "anymal"), ("active", .vbool true),
         ("extra", .vnone), ("joints", .vseq [.vstr "hip", .vstr "knee"]),
         ("gains", .vdict [("p", .vint 10), ("d", .vdict [("q", .vint 3)])]),
         ("sub", .vobj "SubCfg" [("flag", .vbool false), ("ids", .vseq [.vint 1])])]) ""
       = (.vobj "RobotCfg"
          [("count", .vint 2), ("name", .vstr "anymal"), ("active", .vbool true),
           ("extra", .vnone), ("joints", .vseq [.vstr "hip", .vstr "knee"]),
           ("gains", .vdict [("p", .vint 10), ("d", .vdict [("q", .vint 3)])]),
           ("sub", .vobj "SubCfg" [("flag", .vbool false), ("ids", .vseq [.vint 1])])],
          ctdFields
          [("count", .vint 2), ("name", .vstr "anymal"), ("active", .vbool true),
           ("extra", .vnone), ("joints", .vseq [.vstr "hip", .vstr "knee"]),
           ("gains", .vdict [("p", .vint 10), ("d", .vdict [("q", .vint 3)])]),
           ("sub", .vobj "SubCfg" [("flag", .vbool false), ("ids", .vseq [.vint 1])])],
          none)) :=
  ⟨by decide, claimC1_amended [] "RobotCfg" _ _ (by decide)⟩
